import Mathlib

/-!
Shallow embedding of the litehook listener supervisor (Rust) in Lean 4.

Every definition below is translated from the repository sources:
`src/config.rs`, `src/model.rs`, `src/db.rs`, `src/parser.rs`,
`src/listener.rs`, `src/lib.rs` (and, for comparison, the orphaned
`src/web.rs`, which is not declared in the crate's module tree).

Modelling conventions:
- Rust `Option<T>` is `Option T`; `i64` is `Int` (no arithmetic overflow
  is exercised by these claims); `anyhow::Result<T>` is `Except String T`.
- A Rust panic (`unwrap` / `expect` on `None`, failed `try_into`) is
  modelled by an `Option` result whose `none` means "panicked".
- External effects are oracles passed in as explicit arguments:
  `urlOk` stands for `url::Url::parse(..).is_ok()`, `clientOk` for the
  success of `reqwest` client construction (proxy fetch included),
  fetch results and webhook outcomes are inputs of the poll functions.
- `html_to_markdown_rs::convert` output is abstracted: text fields of
  the DOM model already hold the converted strings; its selectors and
  attribute lookups, whose presence/absence drives the claims, are
  explicit in the DOM model.
-/

namespace Litehook

/-! Executable string primitives. Rust `str` operations are modelled on
the character list of the string with structural recursion, so that
every definition evaluates inside the kernel. -/

/-- Rust `str::starts_with` for a literal pattern. -/
def strStartsWith (s p : String) : Bool :=
  List.isPrefixOf p.data s.data

/-- One fuel-indexed pass of `str::replace`: replaces every
non-overlapping occurrence of `pat` left to right (the fuel is the
length of the scanned list, consumed at least one char per step). -/
def replaceGo (pat rep : List Char) : Nat → List Char → List Char
  | _, [] => []
  | 0, s => s
  | fuel + 1, c :: t =>
      if List.isPrefixOf pat (c :: t) ∧ ¬ pat = [] then
        rep ++ replaceGo pat rep fuel (List.drop (pat.length - 1) t)
      else c :: replaceGo pat rep fuel t

/-- Rust `str::replace` (both call sites in the parser replace by the
empty string; an empty pattern leaves the string unchanged there). -/
def strReplace (s pat rep : String) : String :=
  String.mk (replaceGo pat.data rep.data s.data.length s.data)

/-- Rust `str::trim`: strip leading and trailing whitespace. -/
def strTrim (s : String) : String :=
  String.mk
    (List.reverse
      (List.dropWhile Char.isWhitespace
        (List.reverse (List.dropWhile Char.isWhitespace s.data))))

/-- Global listener configuration (src/config.rs `GlobalListenerConfig`). -/
structure GlobalListenerConfig where
  poll_interval : Option Int
  webhook_url : Option String
  proxy_list_url : Option String
  webhook_secret : Option String
deriving Repr, DecidableEq

/-- Per-listener configuration (src/config.rs `ListenerConfig`). -/
structure ListenerConfig where
  id : String
  poll_interval : Option Int
  channel_url : String
  proxy_list_url : Option String
  webhook_url : Option String
  webhook_secret : Option String
deriving Repr, DecidableEq

/-- Merge values from the global config (src/config.rs
`ListenerConfig::merge_with`, lines 79-94): each optional field that is
unset (or, for the string fields, empty) is replaced by the global value;
`poll_interval` is replaced only when unset. -/
def ListenerConfig.merge_with (self : ListenerConfig) (cfg : GlobalListenerConfig) :
    ListenerConfig :=
  let s1 :=
    if self.proxy_list_url = none ∨ self.proxy_list_url = some "" then
      { self with proxy_list_url := cfg.proxy_list_url }
    else self
  let s2 :=
    if s1.webhook_secret = none ∨ s1.webhook_secret = some "" then
      { s1 with webhook_secret := cfg.webhook_secret }
    else s1
  let s3 :=
    if s2.poll_interval = none then
      { s2 with poll_interval := cfg.poll_interval }
    else s2
  if s3.webhook_url = none ∨ s3.webhook_url = some "" then
    { s3 with webhook_url := cfg.webhook_url }
  else s3

/-- Validation (src/config.rs `ListenerConfig::validate`, lines 96-120).
`urlOk` is the oracle for `url::Url::parse(..).is_ok()`. The checks run
in source order: channel prefix, webhook presence and URL syntax, then
`poll_interval.unwrap_or(600) <= 2` rejection. -/
def ListenerConfig.validate (urlOk : String → Bool) (self : ListenerConfig) :
    Except String Unit :=
  if ¬ strStartsWith self.channel_url "https://t.me/s/" then
    .error "channel_url must start with https://t.me/s/"
  else
    match self.webhook_url with
    | some u =>
        if urlOk u then
          if self.poll_interval.getD 600 ≤ 2 then
            .error "poll_interval must be at least 2 seconds"
          else .ok ()
        else .error "webhook_url is not a valid URL"
    | none => .error "webhook_url is required"

/-- Post reaction (src/model.rs `PostReaction`). -/
structure PostReaction where
  emoji : Option String
  count : Option String
deriving Repr, DecidableEq

/-- Telegram post (src/model.rs `Post`). -/
structure Post where
  id : String
  author : Option String
  text : Option String
  media : Option (List String)
  reactions : Option (List PostReaction)
  views : Option String
  date : Option String
deriving Repr, DecidableEq

/-- Channel counters (src/model.rs `ChannelCounters`). -/
structure ChannelCounters where
  subscribers : Option String
  photos : Option String
  videos : Option String
  links : Option String
deriving Repr, DecidableEq

/-- Telegram channel metadata (src/model.rs `Channel`). -/
structure Channel where
  id : String
  name : Option String
  image : Option String
  counters : ChannelCounters
  description : Option String
deriving Repr, DecidableEq

/-- Parsed channel page (src/model.rs `TmePage`). -/
structure TmePage where
  channel : Channel
  posts : List Post
deriving Repr, DecidableEq

/-- Persistent listener row (src/model.rs `ListenerRow`). -/
structure ListenerRow where
  id : String
  active : Bool
  poll_interval : Int
  channel_url : String
  proxy_list_url : Option String
  webhook_url : String
deriving Repr, DecidableEq

/-- Conversion `From<ListenerConfig> for ListenerRow` (src/model.rs,
lines 106-117). The Rust code calls `.expect("valid poll interval")` and
`.expect("valid webhook url")`, so an unset `poll_interval` or
`webhook_url` panics: that is the `none` result here. `active` is
hard-coded `true`. -/
def rowOfConfig (cfg : ListenerConfig) : Option ListenerRow :=
  match cfg.poll_interval, cfg.webhook_url with
  | some pi, some wu =>
      some ⟨cfg.id, true, pi, cfg.channel_url, cfg.proxy_list_url, wu⟩
  | _, _ => none

/-- Conversion `From<ListenerRow> for ListenerConfig` (src/model.rs,
lines 120-131): total, `webhook_secret` is reset to `None`. -/
def configOfRow (row : ListenerRow) : ListenerConfig :=
  ⟨row.id, some row.poll_interval, row.channel_url, row.proxy_list_url,
    some row.webhook_url, none⟩

instance {α β : Type} [DecidableEq α] [DecidableEq β] : DecidableEq (Except α β) :=
  fun a b =>
    match a, b with
    | .ok x, .ok y =>
        if h : x = y then .isTrue (by rw [h])
        else .isFalse (fun hh => h (by injection hh))
    | .error x, .error y =>
        if h : x = y then .isTrue (by rw [h])
        else .isFalse (fun hh => h (by injection hh))
    | .ok _, .error _ => .isFalse (fun hh => Except.noConfusion hh)
    | .error _, .ok _ => .isFalse (fun hh => Except.noConfusion hh)

/-- Stored row of the `posts` table (src/db.rs `insert_post` bindings):
the four plain text columns are nullable (`Option<String>` is bound, a
`None` becomes SQL NULL), while `media` and `reactions` are serialized
as JSON text (a `None` becomes the JSON literal null, not SQL NULL). -/
structure StoredPost where
  author : Option String
  text : Option String
  media : Option (List String)
  reactions : Option (List PostReaction)
  views : Option String
  date : Option String
deriving Repr, DecidableEq

/-- The `posts` table: association list keyed by the primary key `id`. -/
abbrev PostsDb := List (String × StoredPost)

/-- Row lookup by primary key. -/
def PostsDb.lookup (db : PostsDb) (id : String) : Option StoredPost :=
  (List.find? (fun r => r.1 = id) db).map (fun r => r.2)

/-- Idempotent upsert (src/db.rs `Db::insert_post`, lines 80-97:
INSERT OR REPLACE keyed by `id`; SQLite deletes the conflicting row and
inserts the new one). -/
def insert_post (db : PostsDb) (p : Post) : PostsDb :=
  let sp : StoredPost := ⟨p.author, p.text, p.media, p.reactions, p.views, p.date⟩
  List.filter (fun r => ¬ r.1 = p.id) db ++ [(p.id, sp)]

/-- Row fetch and decode (src/db.rs `Db::get_posts`, lines 100-110).
`PostRow` (src/model.rs lines 15-24) declares `author`, `text`, `views`
and `date` as plain `String`, so sqlx fails with an UnexpectedNull
decode error whenever one of those columns is NULL; `media` and
`reactions` decode through `Json<Option<..>>` and round-trip. -/
def get_posts (db : PostsDb) (id : String) : Except String (Option Post) :=
  match db.lookup id with
  | none => .ok none
  | some sp =>
      match sp.author, sp.text, sp.views, sp.date with
      | some a, some t, some v, some d =>
          .ok (some ⟨id, some a, some t, sp.media, sp.reactions, some v, some d⟩)
      | _, _, _, _ => .error "UnexpectedNull"

/-! DOM model for the parser (src/parser.rs). A document is abstracted
to the selector hits the parser inspects; text extraction
(`whole_text`, markdown conversion) is abstracted into the stored
strings, while element and attribute presence is explicit. -/

/-- One `div.tgme_channel_info_counter` block: text of its
`span.counter_value` and `span.counter_type` children (absent child =
`none`). -/
structure CounterBlock where
  value : Option String
  kind : Option String
deriving Repr, DecidableEq

/-- The `div.tgme_channel_info_counters` element, holding its counter
blocks in document order. -/
structure CountersBlock where
  items : List CounterBlock
deriving Repr, DecidableEq

/-- The `div.tgme_channel_info` element as the parser inspects it:
first match of each selector (or `none`), and for the image element its
`src` attribute (inner `Option`). -/
structure ChannelBlock where
  username : Option String
  counters : Option CountersBlock
  name : Option String
  image : Option (Option String)
  description : Option String
deriving Repr, DecidableEq

/-- One `a.tgme_widget_message_photo_wrap` element: its `style`
attribute if present. -/
structure MediaEl where
  style : Option String
deriving Repr, DecidableEq

/-- One `span.tgme_reaction` element: text of its `i.emoji b` child (or
`none`) and its own whole text. -/
structure ReactionEl where
  emoji : Option String
  text : String
deriving Repr, DecidableEq

/-- One `div.tgme_widget_message_wrap` element as the parser inspects
it. `msg` is the first `div.tgme_widget_message` child, and the inner
option is its `data-post` attribute. `date` is the first
`a.tgme_widget_message_date time` child, inner option its `datetime`
attribute. -/
structure PostWrap where
  msg : Option (Option String)
  author : Option String
  text : Option String
  media : List MediaEl
  reactions : Option (List ReactionEl)
  views : Option String
  date : Option (Option String)
deriving Repr, DecidableEq

/-- A whole parsed HTML document: the first `div.tgme_channel_info`
match (if any) and every `div.tgme_widget_message_wrap` in document
order. -/
structure TmeDoc where
  channel : Option ChannelBlock
  posts : List PostWrap
deriving Repr, DecidableEq

/-- Index of the first occurrence of `p` as a sublist of `h` (Rust
`str::find` of a literal pattern). -/
def findSub (h p : List Char) : Option Nat :=
  if List.isPrefixOf p h then some 0
  else
    match h with
    | [] => none
    | _ :: t => (findSub t p).map (fun n => n + 1)

/-- Media URL extraction (src/parser.rs `parse_media`, lines 125-136):
looks for `url('` inside the `style` attribute, then for the closing
`')`. The closing search uses `.unwrap()`, so a style containing
`url('` with no subsequent `')` panics: that is the outer `none`.
The inner option is the extracted URL. -/
def parse_media (e : MediaEl) : Option (Option String) :=
  match e.style with
  | none => some none
  | some style =>
      match findSub style.data "url('".data with
      | none => some none
      | some i =>
          let rest := style.data.drop (i + 5)
          match findSub rest "')".data with
          | none => none
          | some j => some (some (String.mk (rest.take j)))

/-- Reaction extraction (src/parser.rs `parse_reactions`, lines
101-123): emoji text defaults to "unknown", the count is the reaction's
whole text with the emoji removed and trimmed. Never fails. -/
def parse_reactions (rs : List ReactionEl) : List PostReaction :=
  List.map
    (fun r =>
      let emoji := r.emoji.getD "unknown"
      let count := strTrim (strReplace r.text emoji "")
      ⟨some emoji, some count⟩)
    rs

/-- Counter extraction (src/parser.rs `parse_counters`, lines 66-99):
missing children default to the empty string, unknown kinds are
skipped. Never fails. -/
def parse_counters (c : CountersBlock) : ChannelCounters :=
  List.foldl
    (fun (data : ChannelCounters) (block : CounterBlock) =>
      let value := block.value.getD ""
      let kind := block.kind.getD ""
      if kind = "subscriber" ∨ kind = "subscribers" then
        { data with subscribers := some value }
      else if kind = "photo" ∨ kind = "photos" then
        { data with photos := some value }
      else if kind = "video" ∨ kind = "videos" then
        { data with videos := some value }
      else if kind = "link" ∨ kind = "links" then
        { data with links := some value }
      else data)
    ⟨none, none, none, none⟩ c.items

/-- Channel extraction (src/parser.rs `parse_channel`, lines 138-171).
Result `none` models a panic: `.expect("channel id not found")` when
the username element is missing, `.unwrap()` when the counters element
is missing, and `.attr("src").unwrap()` when a present image element
has no `src` attribute. `name` and `description` are plain optionals. -/
def parse_channel (c : ChannelBlock) : Option Channel :=
  match c.username with
  | none => none
  | some uid =>
      match c.counters with
      | none => none
      | some cb =>
          match c.image with
          | some none => none
          | none =>
              some ⟨strReplace uid "@" "", c.name, none, parse_counters cb,
                c.description⟩
          | some (some src) =>
              some ⟨strReplace uid "@" "", c.name, some src, parse_counters cb,
                c.description⟩

/-- Media list collection (src/parser.rs `parse_post`, lines 189-193):
`select(MEDIA_SEL).filter_map(|el| parse_media(el).ok().flatten())`.
A panic inside `parse_media` propagates (outer `none`); otherwise
absent URLs are filtered out. -/
def collectMedia : List MediaEl → Option (List String)
  | [] => some []
  | e :: rest =>
      match parse_media e with
      | none => none
      | some none => collectMedia rest
      | some (some u) => (collectMedia rest).map (fun l => u :: l)

/-- Post extraction (src/parser.rs `parse_post`, lines 173-216).
Result `none` models a panic: `.expect("post not found")` when the
wrap has no message element, `.expect("post id not found")` when the
message element has no `data-post` attribute, or a panic inside
`parse_media`. All other absent fields become `none` in that field.
The media vector is wrapped in `Some` only when non-empty, and `date`
is `and_then` over the `datetime` attribute (no panic). -/
def parse_post (p : PostWrap) : Option Post :=
  match p.msg with
  | none => none
  | some none => none
  | some (some id) =>
      match collectMedia p.media with
      | none => none
      | some urls =>
          some ⟨id, p.author, p.text,
            if urls.isEmpty then none else some urls,
            p.reactions.map parse_reactions,
            p.views,
            p.date.bind (fun a => a)⟩

/-- Sequential post extraction in document order (the `for post in
document.select(POST_SEL)` loop of `parse_page`): a panic in any post
propagates. -/
def parsePosts : List PostWrap → Option (List Post)
  | [] => some []
  | p :: rest =>
      match parse_post p with
      | none => none
      | some post => (parsePosts rest).map (fun l => post :: l)

/-- Page extraction (src/parser.rs `parse_page`, lines 223-243).
Outer `none` models a panic inside `parse_channel` or `parse_post`;
`some none` is the `Ok(None)` returned exactly when no
`div.tgme_channel_info` element exists. -/
def parse_page (d : TmeDoc) : Option (Option TmePage) :=
  match d.channel with
  | none => some none
  | some cb =>
      match parse_channel cb with
      | none => none
      | some ch =>
          match parsePosts d.posts with
          | none => none
          | some posts => some (some ⟨ch, posts⟩)

/-! Webhook retry (src/listener.rs `send_webhook_retry`, lines 169-191,
and the orphaned variant in src/web.rs, lines 54-73). The outcome of
each individual `send_webhook` call is an oracle `outcome : Nat →
Except String Nat` (attempt number to HTTP result). The returned trace
records attempts, warning logs, sleeps (with their duration in
seconds) and the final error log. -/

/-- Observable events of a retry loop. -/
inductive RetryEv where
  | attempt (n : Nat)
  | warnLog (n : Nat)
  | sleepSec (secs : Nat)
  | errLog (n : Nat)
deriving Repr, DecidableEq

/-- The `for att in 1..=max_retries` loop of src/listener.rs
`send_webhook_retry`, unrolled on the number of remaining iterations
(`remaining = max_retries + 1 - att`). A success returns immediately;
a failure with `att < max_retries` logs a warning and sleeps 1 second;
the final attempt's failure logs an error and returns that error. When
the loop runs zero times the trailing generic error is returned. -/
def retryFrom (outcome : Nat → Except String Nat) (att : Nat) :
    Nat → List RetryEv × Except String Nat
  | 0 => ([], .error "webhook failed")
  | remaining + 1 =>
      match outcome att with
      | .ok r => ([.attempt att], .ok r)
      | .error e =>
          if remaining = 0 then ([.attempt att, .errLog att], .error e)
          else
            let rest := retryFrom outcome (att + 1) remaining
            (.attempt att :: .warnLog att :: .sleepSec 1 :: rest.1, rest.2)

/-- src/listener.rs `Listener::send_webhook_retry` (lines 169-191). -/
def send_webhook_retry (outcome : Nat → Except String Nat) (max_retries : Nat) :
    List RetryEv × Except String Nat :=
  retryFrom outcome 1 max_retries

/-- The retry loop of the orphaned src/web.rs `send_webhook_retry`
(lines 54-73): after a failed attempt `att < max_retries` it sleeps
`1 * att` seconds, and after the loop it always returns the generic
"webhook failed after N attempts" error (the final attempt's own error
is dropped, and its failure is not logged). -/
def webRetryFrom (outcome : Nat → Except String Nat) (att : Nat) :
    Nat → List RetryEv × Except String Nat
  | 0 => ([], .error "webhook failed after max_retries attempts")
  | remaining + 1 =>
      match outcome att with
      | .ok r => ([.attempt att], .ok r)
      | .error _ =>
          if remaining = 0 then
            ([.attempt att], .error "webhook failed after max_retries attempts")
          else
            let rest := webRetryFrom outcome (att + 1) remaining
            (.attempt att :: .warnLog att :: .sleepSec att :: rest.1, rest.2)

/-- src/web.rs `send_webhook_retry` (lines 54-73); this file is not
declared in the crate's module tree (src/lib.rs has no `mod web`). -/
def web_send_webhook_retry (outcome : Nat → Except String Nat) (max_retries : Nat) :
    List RetryEv × Except String Nat :=
  webRetryFrom outcome 1 max_retries

/-! Listener worker (src/listener.rs). -/

/-- Construction (src/listener.rs `Listener::new`, lines 22-32):
validate, then build the HTTP client (`clientOk` is the oracle for
`create_client`, whose proxy fetch may fail). -/
def listener_new (urlOk : String → Bool) (clientOk : ListenerConfig → Bool)
    (cfg : ListenerConfig) : Except String ListenerConfig :=
  match cfg.validate urlOk with
  | .error e => .error e
  | .ok _ => if clientOk cfg then .ok cfg else .error "failed to create client"

/-- Sleep duration of one poll cycle (src/listener.rs
`Listener::poll_cycle`, lines 76-81):
`self.cfg.poll_interval.unwrap_or(600)` followed by
`interval.try_into().unwrap()` converting `i64` to `u64`, which panics
(`none` here) exactly when the interval is negative. -/
def Listener.sleep_secs (cfg : ListenerConfig) : Option Nat :=
  let interval := cfg.poll_interval.getD 600
  if 0 ≤ interval then some interval.toNat else none

/-- Diff-and-insert loop of src/listener.rs `Listener::poll` (lines
93-99): for each page post in order, a `get_posts` miss inserts the
post and appends it to `new_posts`; a hit skips it; a `get_posts`
decode error propagates out of the loop (`?`), keeping the inserts
already performed and discarding the local `new_posts` vector. Returns
the updated table, the new posts in order, and the error if any. -/
def diffStep : PostsDb → List Post → PostsDb × List Post × Option String
  | db, [] => (db, [], none)
  | db, p :: rest =>
      match get_posts db p.id with
      | .error e => (db, [], some e)
      | .ok (some _) => diffStep db rest
      | .ok none =>
          let r := diffStep (insert_post db p) rest
          (r.1, p :: r.2.1, r.2.2)

/-- Result of one poll (or of one run-loop arm). -/
inductive PollRes where
  | panicked
  | errored (e : String)
  | ok
deriving Repr, DecidableEq

/-- One poll (src/listener.rs `Listener::poll`, lines 85-119).
Inputs: the fetch result (`none` = `fetch_html` error), and the
webhook outcome oracle `webhookOk` for the `send_webhook_retry` call.
Output: result, updated posts table, and the `new_posts` payload
handed to `send_webhook_retry` (if a delivery was attempted).
A fetch error or an `Ok(None)` parse propagates as an error; a parser
panic is a panic; an empty batch sends nothing; a missing
`webhook_url` with new posts errors after the inserts; a delivery
failure is only logged (the result is `ok` whatever `webhookOk` is). -/
def Listener.poll (cfg : ListenerConfig) (db : PostsDb)
    (fetched : Option TmeDoc) (webhookOk : Bool) :
    PollRes × PostsDb × Option (List Post) :=
  match fetched with
  | none => (.errored "fetch error", db, none)
  | some doc =>
      match parse_page doc with
      | none => (.panicked, db, none)
      | some none => (.errored "invalid channel", db, none)
      | some (some page) =>
          let r := diffStep db page.posts
          match r.2.2 with
          | some e => (.errored e, r.1, none)
          | none =>
              if r.2.1.isEmpty then (.ok, r.1, none)
              else
                match cfg.webhook_url with
                | none => (.errored "webhook_url is not configured", r.1, none)
                | some _ =>
                    let _ := webhookOk
                    (.ok, r.1, some r.2.1)

/-- Worker state: the effective (merged) config behind the RwLock and
the shared posts table. -/
structure WorkerSt where
  cfg : ListenerConfig
  db : PostsDb
deriving Repr, DecidableEq

/-- One ready arm of the worker's `tokio::select!` (src/listener.rs
`Listener::run`, lines 34-57). -/
inductive WorkerEv where
  | cancel
  | globalChanged (g : GlobalListenerConfig)
  | pollDone (fetched : Option TmeDoc) (webhookOk : Bool)

/-- Outcome of one iteration of the run loop. -/
inductive RunOut where
  | running (s : WorkerSt) (delivered : Option (List Post))
  | stopped
  | exited (e : String)
  | panicked
deriving Repr, DecidableEq

/-- One iteration of src/listener.rs `Listener::run` (lines 38-56).
On cancellation the loop returns `Ok`. On a global-config change the
code clones the worker's CURRENT (already merged) config and calls
`reconfigure(new_global, current_cfg)`, i.e. installs
`current_cfg.merge_with(new_global)` (src/listener.rs lines 49-52 and
66-73). On a finished poll cycle, `res?` propagates any error out of
`run`. -/
def Listener.run_step (s : WorkerSt) : WorkerEv → RunOut
  | .cancel => .stopped
  | .globalChanged g => .running ⟨s.cfg.merge_with g, s.db⟩ none
  | .pollDone fetched webhookOk =>
      let r := Listener.poll s.cfg s.db fetched webhookOk
      match r.1 with
      | .panicked => .panicked
      | .errored e => .exited e
      | .ok => .running ⟨s.cfg, r.2.1⟩ r.2.2

/-- The payloads handed to `send_webhook_retry` along a run of the
worker loop over a sequence of ready events; the loop stops producing
deliveries once it returns or panics. -/
def runDeliveries (s : WorkerSt) : List WorkerEv → List (List Post)
  | [] => []
  | ev :: rest =>
      match Listener.run_step s ev with
      | .running s' (some posts) => posts :: runDeliveries s' rest
      | .running s' none => runDeliveries s' rest
      | _ => []

/-! Supervisor (src/lib.rs `Server`). The live-worker map abstracts a
worker to its effective config (the contents of its `cfg` lock); the
`listeners` database table is an association list of rows; the mailbox
is the FIFO queue of pending commands. -/

/-- Commands of the mailbox (src/lib.rs `ListenerCmd`). -/
inductive ListenerCmd where
  | Add (cfg : ListenerConfig)
  | Remove (id : String)
deriving Repr, DecidableEq

/-- Supervisor state: live-worker map, durable `listeners` table,
pending mailbox commands, and the watched global config. -/
structure ServerSt where
  listeners : List (String × ListenerConfig)
  rows : List ListenerRow
  mailbox : List ListenerCmd
  global : GlobalListenerConfig
deriving Repr, DecidableEq

/-- INSERT OR REPLACE on the `listeners` table (src/db.rs
`Db::insert_listener`, lines 112-128). -/
def upsertRow (rows : List ListenerRow) (r : ListenerRow) : List ListenerRow :=
  if List.any rows (fun x => x.id = r.id) then
    List.map (fun x => if x.id = r.id then r else x) rows
  else rows ++ [r]

/-- src/lib.rs `Server::add_listener` (lines 105-113): converts the
config to a row (`cfg.clone().into()`, which PANICS when
`poll_interval` or `webhook_url` is unset — the `none` result here),
upserts it (a store error would only be logged), enqueues
`Add(cfg)` and returns `Ok`. No validation is performed. -/
def Server.add_listener (s : ServerSt) (cfg : ListenerConfig) : Option ServerSt :=
  (rowOfConfig cfg).map fun r =>
    { s with rows := upsertRow s.rows r, mailbox := s.mailbox ++ [.Add cfg] }

/-- src/lib.rs `Server::remove_listener` (lines 116-126): enqueues
`Remove(id)` then deletes the durable row (a store error would only be
logged). -/
def Server.remove_listener (s : ServerSt) (id : String) : ServerSt :=
  { s with mailbox := s.mailbox ++ [.Remove id],
           rows := List.filter (fun x => ¬ x.id = id) s.rows }

/-- src/lib.rs `Server::update_listener` (lines 129-146): looks up the
live worker (absent id errors with "listener not found"); otherwise
calls `listener.reconfigure(current_global, cfg)`, which installs
`cfg.merge_with(global)` into the worker with NO validation
(src/listener.rs lines 66-73), then upserts the durable row from
`cfg.clone().into()` (outer `none`: that conversion panics when
`poll_interval` or `webhook_url` is unset — after the reconfigure
already happened). -/
def Server.update_listener (s : ServerSt) (cfg : ListenerConfig) :
    Option (Except String ServerSt) :=
  if List.any s.listeners (fun p => p.1 = cfg.id) then
    let newLive :=
      List.map (fun p => if p.1 = cfg.id then (p.1, cfg.merge_with s.global) else p)
        s.listeners
    let s1 := { s with listeners := newLive }
    (rowOfConfig cfg).map fun r => .ok { s1 with rows := upsertRow s1.rows r }
  else some (.error "listener not found")

/-- src/lib.rs `Server::update_global_config` (lines 158-160): writes
the watched cell. Workers observe the change through their own
`run` loop (`Listener.run_step`, `globalChanged`). -/
def Server.update_global_config (s : ServerSt) (cfg : GlobalListenerConfig) :
    ServerSt :=
  { s with global := cfg }

/-- src/lib.rs `Server::spawn_listener` (lines 177-207): merge with the
current global config; if the id is already live, log a warning and
return; if `Listener::new` fails (validation or client construction),
log the error and return; otherwise insert the worker (holding the
merged config) into the live map and spawn its run loop. -/
def Server.spawn_listener (urlOk : String → Bool) (clientOk : ListenerConfig → Bool)
    (s : ServerSt) (cfg : ListenerConfig) : ServerSt :=
  let cfg := cfg.merge_with s.global
  if List.any s.listeners (fun p => p.1 = cfg.id) then s
  else
    match listener_new urlOk clientOk cfg with
    | .error _ => s
    | .ok _ => { s with listeners := s.listeners ++ [(cfg.id, cfg)] }

/-- src/lib.rs `Server::shutdown_listener` (lines 209-224): remove the
worker from the live map and cancel it (absent id only logs). -/
def Server.shutdown_listener (s : ServerSt) (id : String) : ServerSt :=
  { s with listeners := List.filter (fun p => ¬ p.1 = id) s.listeners }

/-- One step of the command loop in src/lib.rs `Server::run`
(lines 88-95). -/
def Server.process_cmd (urlOk : String → Bool) (clientOk : ListenerConfig → Bool)
    (s : ServerSt) : ListenerCmd → ServerSt
  | .Add cfg => Server.spawn_listener urlOk clientOk s cfg
  | .Remove id => Server.shutdown_listener s id

/-- Processing of every command currently queued, in FIFO order. -/
def Server.drain_mailbox (urlOk : String → Bool) (clientOk : ListenerConfig → Bool)
    (s : ServerSt) : ServerSt :=
  List.foldl (Server.process_cmd urlOk clientOk)
    { s with mailbox := [] } s.mailbox

/-- The restore phase of src/lib.rs `Server::run` (lines 75-79):
`for listener in self.db.get_all_listeners(): self.add_listener(cfg)`
over a snapshot of the rows, each call `.unwrap()`ed (outer `none`
models that panic). It only re-upserts rows and enqueues `Add`
commands; no worker is spawned here. -/
def Server.restore (s : ServerSt) : Option ServerSt :=
  List.foldlM (fun st row => Server.add_listener st (configOfRow row)) s s.rows

/-! Concrete fixtures used to evaluate the model (drawn from the
spec's end-to-end scenarios). -/

/-- Trivial URL-syntax oracle (every string parses). -/
def anyUrlOk : String → Bool := fun _ => true

/-- Trivial client-construction oracle (client building always
succeeds, i.e. no proxy list is fetched or the fetch works). -/
def anyClientOk : ListenerConfig → Bool := fun _ => true

/-- Global config with no defaults set. -/
def gNone : GlobalListenerConfig := ⟨none, none, none, none⟩

/-- Global config carrying only a webhook default (scenario 6). -/
def gHook1 : GlobalListenerConfig := ⟨none, some "https://g/", none, none⟩

/-- Updated global config of scenario 6. -/
def gHook2 : GlobalListenerConfig := ⟨none, some "https://g2/", none, none⟩

/-- Listener config with per-listener webhook unset (scenario 6). -/
def cfgNews0 : ListenerConfig :=
  ⟨"news", some 60, "https://t.me/s/news", none, none, none⟩

/-- Durable row of the cold-boot scenario (scenario 1). -/
def newsRow : ListenerRow :=
  ⟨"news", true, 60, "https://t.me/s/news", none, "https://w.example/h"⟩

/-- Config whose channel_url lacks the required prefix. -/
def badChannelCfg : ListenerConfig :=
  ⟨"bad", some 600, "https://example.com/x", none, some "https://w/", none⟩

/-- A valid listener config with id "a" (scenario 2). -/
def cfgA : ListenerConfig :=
  ⟨"a", some 5, "https://t.me/s/a", none, some "https://w/", none⟩

/-- Update for listener "a" carrying poll_interval 1 (< 3). -/
def updCfgA : ListenerConfig :=
  ⟨"a", some 1, "https://t.me/s/a", none, some "https://w/", none⟩

/-- Listener config with an unset webhook_url. -/
def cfgNoHook : ListenerConfig :=
  ⟨"n", some 60, "https://t.me/s/n", none, none, none⟩

/-- Listener config with a negative poll_interval. -/
def negCfgA : ListenerConfig :=
  ⟨"a", some (-9), "https://t.me/s/a", none, some "https://w/", none⟩

/-- Listener config with an unset poll_interval. -/
def cfgNoInterval : ListenerConfig :=
  ⟨"d", none, "https://t.me/s/d", none, some "https://w/", none⟩

/-- A channel block whose username element is missing but whose other
required pieces are present. -/
def cbNoUser : ChannelBlock := ⟨none, some ⟨[]⟩, none, none, none⟩

/-- A fully well-formed minimal channel block. -/
def cbOk : ChannelBlock := ⟨some "news", some ⟨[]⟩, none, none, none⟩

/-- A post wrap with a message id and every optional field missing. -/
def pwOne : PostWrap := ⟨some (some "p/1"), none, none, [], none, none, none⟩

/-- A document with a valid channel block and one post. -/
def docOne : TmeDoc := ⟨some cbOk, [pwOne]⟩

/-- A document whose channel block is present but lacks the username
field. -/
def docNoUser : TmeDoc := ⟨some cbNoUser, []⟩

/-- A post with an unset author (as the extractor produces for a post
without an author element). -/
def pNoAuthor : Post :=
  ⟨"t/1", none, some "hello", none, none, some "5", some "2026-02-14"⟩

/-- Webhook outcome oracle: attempts 1 fails, attempt 2 succeeds. -/
def okAtTwo : Nat → Except String Nat :=
  fun k => if k = 2 then .ok 200 else .error "503"

/-- Webhook outcome oracle: every attempt fails. -/
def allFail : Nat → Except String Nat := fun _ => .error "503"

/-- Number of `attempt` events in a retry trace. -/
def countAttempts : List RetryEv → Nat
  | [] => 0
  | .attempt _ :: t => countAttempts t + 1
  | _ :: t => countAttempts t

/-- Number of `sleepSec` events in a retry trace. -/
def countSleeps : List RetryEv → Nat
  | [] => 0
  | .sleepSec _ :: t => countSleeps t + 1
  | _ :: t => countSleeps t

/-- Number of `warnLog` events in a retry trace. -/
def countWarns : List RetryEv → Nat
  | [] => 0
  | .warnLog _ :: t => countWarns t + 1
  | _ :: t => countWarns t

/-- A row of the posts table exists for this id. -/
def rowMem (db : PostsDb) (x : String) : Prop :=
  (PostsDb.lookup db x).isSome = true

instance (db : PostsDb) (x : String) : Decidable (rowMem db x) := by
  unfold rowMem; infer_instance

/-- Number of occurrences of post id `x` in one `new_posts` payload. -/
def countId : List Post → String → Nat
  | [], _ => 0
  | q :: t, x => (if q.id = x then 1 else 0) + countId t x

/-- Number of occurrences of post id `x` across a list of delivered
`new_posts` payloads. -/
def deliveredCount : List (List Post) → String → Nat
  | [], _ => 0
  | l :: t, x => countId l x + deliveredCount t x

/-- A listener row spawns successfully when the Add command created
from it is processed: its config (merged with the global config)
validates and the HTTP client builds. -/
def spawnOk (urlOk : String → Bool) (clientOk : ListenerConfig → Bool)
    (g : GlobalListenerConfig) (r : ListenerRow) : Bool :=
  match listener_new urlOk clientOk ((configOfRow r).merge_with g) with
  | .ok _ => true
  | .error _ => false

/-! Shared lemmas. -/

theorem merge_with_id (c : ListenerConfig) (g : GlobalListenerConfig) :
    (c.merge_with g).id = c.id := by
  unfold ListenerConfig.merge_with
  dsimp only
  split <;> split <;> split <;> split <;> rfl

theorem merge_with_channel_url (c : ListenerConfig) (g : GlobalListenerConfig) :
    (c.merge_with g).channel_url = c.channel_url := by
  unfold ListenerConfig.merge_with
  dsimp only
  split <;> split <;> split <;> split <;> rfl

theorem merge_with_poll_some (c : ListenerConfig) (g : GlobalListenerConfig)
    (i : Int) (h : c.poll_interval = some i) :
    (c.merge_with g).poll_interval = some i := by
  unfold ListenerConfig.merge_with
  dsimp only
  split <;> split <;> split <;> split <;> simp_all

theorem listener_new_ok_props (urlOk : String → Bool) (clientOk : ListenerConfig → Bool)
    (cfg c : ListenerConfig) (h : listener_new urlOk clientOk cfg = .ok c) :
    cfg.validate urlOk = .ok () ∧ c = cfg := by
  unfold listener_new at h
  split at h
  · exact absurd h (by simp)
  · rename_i u hval
    split at h
    · cases u
      refine ⟨hval, ?_⟩
      injection h with h1
      exact h1.symm
    · exact absurd h (by simp)

theorem validate_ok_props (urlOk : String → Bool) (c : ListenerConfig)
    (h : c.validate urlOk = .ok ()) :
    strStartsWith c.channel_url "https://t.me/s/" = true ∧
      c.webhook_url ≠ none ∧ 2 < c.poll_interval.getD 600 := by
  unfold ListenerConfig.validate at h
  split at h
  · exact absurd h (by simp)
  · rename_i hpre
    split at h
    · rename_i u hu
      split at h
      · split at h
        · exact absurd h (by simp)
        · rename_i hurl hint
          refine ⟨by simpa using hpre, by simp [hu], by omega⟩
      · exact absurd h (by simp)
    · exact absurd h (by simp)

/-- C1: a global-config change does not propagate to fields a live
worker inherited from the previous global config. In scenario 6
(per-listener webhook unset, old global webhook "https://g/", new
global webhook "https://g2/"), the run loop's global-change arm clones
the worker's current (already merged) config and re-merges it with the
new global config, so the inherited webhook "https://g/" — being set
and non-empty — is kept and the next delivery still targets
"https://g/", not "https://g2/" as the spec requires. -/
theorem C1_global_change_keeps_stale_webhook :
    (cfgNews0.merge_with gHook1).webhook_url = some "https://g/" ∧
      Listener.run_step ⟨cfgNews0.merge_with gHook1, []⟩ (.globalChanged gHook2) =
        .running ⟨cfgNews0.merge_with gHook1, []⟩ none ∧
      (cfgNews0.merge_with gHook1).webhook_url ≠ some "https://g2/" := by
  refine ⟨by decide, by decide, by decide⟩

/-- C5: `insert_post` is an idempotent upsert, but `get_post` does not
round-trip a post with an unset optional field: inserting `pNoAuthor`
(author = none) stores a NULL author column, and the subsequent lookup
fails to decode NULL into `PostRow.author : String` (sqlx
UnexpectedNull) instead of returning the post. -/
theorem C5_roundtrip_fails_for_unset_fields :
    insert_post (insert_post [] pNoAuthor) pNoAuthor = insert_post [] pNoAuthor ∧
      get_posts (insert_post [] pNoAuthor) "t/1" = .error "UnexpectedNull" ∧
      get_posts (insert_post [] pNoAuthor) "t/1" ≠ .ok (some pNoAuthor) := by
  refine ⟨by decide, by decide, by decide⟩

/-- C2 counterexample: `Server::add_listener` performs no validation.
Called with a config whose channel_url does not start with
"https://t.me/s/", it still upserts the durable row, enqueues
`Add(cfg)` and returns Ok to the caller — no error is returned even
though `validate` rejects this config. -/
theorem C2_add_listener_accepts_invalid :
    badChannelCfg.validate anyUrlOk =
        .error "channel_url must start with https://t.me/s/" ∧
      Server.add_listener ⟨[], [], [], gNone⟩ badChannelCfg =
        some ⟨[], [⟨"bad", true, 600, "https://example.com/x", none, "https://w/"⟩],
          [.Add badChannelCfg], gNone⟩ := by
  refine ⟨by decide, by decide⟩

/-- C3 counterexample: `Server::update_listener` installs the merged
config with no validation. Updating live listener "a" with
poll_interval = 1 succeeds and leaves the worker observing an
effective config with poll_interval 1 < 3, violating invariant I4. -/
theorem C3_update_installs_invalid_interval :
    Server.update_listener ⟨[("a", cfgA)], [], [], gNone⟩ updCfgA =
        some (.ok ⟨[("a", updCfgA)],
          [⟨"a", true, 1, "https://t.me/s/a", none, "https://w/"⟩], [], gNone⟩) ∧
      updCfgA.poll_interval.getD 600 < 3 := by
  refine ⟨by decide, by decide⟩

/-- C4 counterexample: `parse_page` panics (it does not return `none`
or an error value) on a page whose channel-info block is present but
lacks the username element: `parse_channel` hits
`.expect("channel id not found")`. -/
theorem C4_missing_username_panics :
    docNoUser.channel ≠ none ∧ parse_page docNoUser = none := by
  refine ⟨by decide, by decide⟩

/-- C6 counterexample: the restore phase of `Server::run` spawns no
worker at all — it only re-upserts each row and enqueues an
`Add` command; the live map is still empty when the mailbox loop
starts, and the worker for row "news" is only created by processing
that mailbox command. -/
theorem C6_restore_spawns_no_worker :
    Server.restore ⟨[], [newsRow], [], gNone⟩ =
        some ⟨[], [newsRow], [.Add (configOfRow newsRow)], gNone⟩ ∧
      (⟨[], [newsRow], [.Add (configOfRow newsRow)], gNone⟩ : ServerSt).listeners
        = [] := by
  refine ⟨by decide, by decide⟩

/-- C9 counterexample: a poll cycle can fail (and terminate the run
loop) even though the fetch succeeded and `parse_page` returned a
page: with a new post and `webhook_url` unset, `poll` errors with
"webhook_url is not configured" after the insert. -/
theorem C9_poll_fails_without_webhook :
    (∃ page, parse_page docOne = some (some page)) ∧
      Listener.run_step ⟨cfgNoHook, []⟩ (.pollDone (some docOne) true) =
        .exited "webhook_url is not configured" := by
  exact ⟨⟨⟨⟨"news", none, none, ⟨none, none, none, none⟩, none⟩,
    [⟨"p/1", none, none, none, none, none, none⟩]⟩, by decide⟩, by decide⟩

/-- C10: with an effective `poll_interval` set to a negative value, the
poll cycle's `interval.try_into().unwrap()` (i64 to u64) panics; with
`poll_interval` unset the cycle sleeps the hard-coded 600 seconds; and
the `update_listener` path applies `merge_with` with no validation, so
a negative per-listener interval reaches the live worker unchanged. -/
theorem C10_negative_interval_panics :
    (∀ (cfg : ListenerConfig) (i : Int), cfg.poll_interval = some i → i < 0 →
      Listener.sleep_secs cfg = none) ∧
    (∀ cfg : ListenerConfig, cfg.poll_interval = none →
      Listener.sleep_secs cfg = some 600) ∧
    (∀ (s : ServerSt) (cfg : ListenerConfig) (i : Int) (wu : String),
      cfg.poll_interval = some i → cfg.webhook_url = some wu →
      List.any s.listeners (fun p => p.1 = cfg.id) = true →
      ∃ s', Server.update_listener s cfg = some (.ok s') ∧
        (cfg.id, cfg.merge_with s.global) ∈ s'.listeners ∧
        (cfg.merge_with s.global).poll_interval = some i) := by
  refine ⟨?_, ?_, ?_⟩
  · intro cfg i h hneg
    unfold Listener.sleep_secs
    rw [h]
    simp only [Option.getD_some]
    rw [if_neg (by omega)]
  · intro cfg h
    unfold Listener.sleep_secs
    rw [h]
    rfl
  · intro s cfg i wu hpi hwu hlive
    have hrow : rowOfConfig cfg =
        some ⟨cfg.id, true, i, cfg.channel_url, cfg.proxy_list_url, wu⟩ := by
      unfold rowOfConfig; rw [hpi, hwu]
    unfold Server.update_listener
    rw [if_pos hlive, hrow]
    refine ⟨_, rfl, ?_, merge_with_poll_some cfg s.global i hpi⟩
    obtain ⟨q, hq, hq1⟩ := List.any_eq_true.mp hlive
    have hq2 : q.1 = cfg.id := of_decide_eq_true hq1
    have himg : (fun p => if p.1 = cfg.id then (p.1, cfg.merge_with s.global) else p) q
        = (cfg.id, cfg.merge_with s.global) := by
      dsimp only
      rw [if_pos hq2, hq2]
    exact himg ▸ List.mem_map_of_mem _ hq

/-- C10 witness: concrete negative interval (-9) panics the sleep,
unset interval sleeps 600, and updating live listener "a" with the
negative config succeeds and installs it unchanged. -/
theorem C10_negative_interval_panics_witness :
    Listener.sleep_secs negCfgA = none ∧
      Listener.sleep_secs cfgNoInterval = some 600 ∧
      ∃ s', Server.update_listener ⟨[("a", negCfgA)], [], [], gNone⟩ negCfgA =
          some (.ok s') ∧
        ("a", negCfgA.merge_with gNone) ∈ s'.listeners ∧
        (negCfgA.merge_with gNone).poll_interval = some (-9) :=
  ⟨C10_negative_interval_panics.1 negCfgA (-9) (by decide) (by decide),
   C10_negative_interval_panics.2.1 cfgNoInterval (by decide),
   C10_negative_interval_panics.2.2 ⟨[("a", negCfgA)], [], [], gNone⟩ negCfgA (-9)
     "https://w/" (by decide) (by decide) (by decide)⟩

/-- C2 (amended): `add_listener` performs no validation — for any
config whose `poll_interval` and `webhook_url` are set it upserts the
row and enqueues `Add(cfg)`, returning Ok even when the config is
invalid, and it panics (rather than returning an error) when
`poll_interval` or `webhook_url` is unset; rejection of an invalid
config happens only when the `Add` command is processed, where the
merged config fails `Listener::new` validation and no worker is
spawned. -/
theorem C2_add_skips_validation_spawn_rejects :
    (∀ (s : ServerSt) (cfg : ListenerConfig) (pi : Int) (wu : String),
      cfg.poll_interval = some pi → cfg.webhook_url = some wu →
      Server.add_listener s cfg =
        some { s with
          rows := upsertRow s.rows
            ⟨cfg.id, true, pi, cfg.channel_url, cfg.proxy_list_url, wu⟩,
          mailbox := s.mailbox ++ [.Add cfg] }) ∧
    (∀ (s : ServerSt) (cfg : ListenerConfig),
      cfg.poll_interval = none ∨ cfg.webhook_url = none →
      Server.add_listener s cfg = none) ∧
    (∀ (urlOk : String → Bool) (clientOk : ListenerConfig → Bool) (s : ServerSt)
      (cfg : ListenerConfig) (e : String),
      (cfg.merge_with s.global).validate urlOk = .error e →
      Server.spawn_listener urlOk clientOk s cfg = s) := by
  refine ⟨?_, ?_, ?_⟩
  · intro s cfg pi wu hpi hwu
    unfold Server.add_listener rowOfConfig
    rw [hpi, hwu]
    rfl
  · intro s cfg h
    unfold Server.add_listener rowOfConfig
    rcases h with h | h
    · rw [h]
      rcases cfg.webhook_url with _ | u <;> rfl
    · rw [h]
      rcases cfg.poll_interval with _ | i <;> rfl
  · intro urlOk clientOk s cfg e hval
    unfold Server.spawn_listener
    dsimp only
    split
    · rfl
    · unfold listener_new
      rw [hval]

/-- C2 witness: adding the valid config "a" to an empty supervisor
upserts its row and enqueues the command; adding a config with unset
webhook_url panics; spawning the invalid-prefix config leaves the
state unchanged (no worker). -/
theorem C2_add_skips_validation_spawn_rejects_witness :
    Server.add_listener ⟨[], [], [], gNone⟩ cfgA =
        some ⟨[], [⟨"a", true, 5, "https://t.me/s/a", none, "https://w/"⟩],
          [.Add cfgA], gNone⟩ ∧
      Server.add_listener ⟨[], [], [], gNone⟩ cfgNoHook = none ∧
      Server.spawn_listener anyUrlOk anyClientOk ⟨[], [], [], gNone⟩ badChannelCfg =
        ⟨[], [], [], gNone⟩ :=
  ⟨(C2_add_skips_validation_spawn_rejects.1 ⟨[], [], [], gNone⟩ cfgA 5 "https://w/"
      (by decide) (by decide)).trans (by decide),
   C2_add_skips_validation_spawn_rejects.2.1 ⟨[], [], [], gNone⟩ cfgNoHook
     (Or.inr (by decide)),
   C2_add_skips_validation_spawn_rejects.2.2 anyUrlOk anyClientOk
     ⟨[], [], [], gNone⟩ badChannelCfg
     "channel_url must start with https://t.me/s/" (by decide)⟩

/-- C3 (amended): a worker installed by `spawn_listener` always
satisfies invariant I4 (its merged config passed validation, so
`webhook_url` is set and the effective interval is at least 3), but
`update_listener` installs the merged config with no validation, so a
live worker can be reconfigured to violate the invariant. -/
theorem C3_spawn_preserves_reconfigure_breaks :
    (∀ (urlOk : String → Bool) (clientOk : ListenerConfig → Bool) (s : ServerSt)
      (cfg : ListenerConfig) (q : String × ListenerConfig),
      q ∈ (Server.spawn_listener urlOk clientOk s cfg).listeners →
      q ∈ s.listeners ∨
        (q.2.webhook_url ≠ none ∧ 3 ≤ q.2.poll_interval.getD 600)) ∧
    (∃ (s s' : ServerSt) (cfg : ListenerConfig),
      Server.update_listener s cfg = some (.ok s') ∧
      ∃ q ∈ s'.listeners, q.2.poll_interval.getD 600 < 3) := by
  constructor
  · intro urlOk clientOk s cfg q hq
    unfold Server.spawn_listener at hq
    dsimp only at hq
    split at hq
    · exact Or.inl hq
    · split at hq
      · exact Or.inl hq
      · rename_i c hnew
        dsimp only at hq
        rcases List.mem_append.mp hq with h | h
        · exact Or.inl h
        · rcases List.mem_singleton.mp h with rfl
          obtain ⟨hval, -⟩ :=
            listener_new_ok_props urlOk clientOk (cfg.merge_with s.global) c hnew
          obtain ⟨-, hweb, hint⟩ :=
            validate_ok_props urlOk (cfg.merge_with s.global) hval
          refine Or.inr ⟨hweb, ?_⟩
          dsimp only
          omega
  · exact ⟨⟨[("a", cfgA)], [], [], gNone⟩,
      ⟨[("a", updCfgA)], [⟨"a", true, 1, "https://t.me/s/a", none, "https://w/"⟩],
        [], gNone⟩,
      updCfgA, by decide, ("a", updCfgA), by decide, by decide⟩

/-- C3 witness: spawning the valid config "a" on an empty supervisor
yields a live worker, and the invariant disjunct delivered by the
theorem holds for it concretely. -/
theorem C3_spawn_preserves_reconfigure_breaks_witness :
    ("a", cfgA) ∈
        (Server.spawn_listener anyUrlOk anyClientOk ⟨[], [], [], gNone⟩ cfgA).listeners ∧
      (("a", cfgA) ∈ ([] : List (String × ListenerConfig)) ∨
        (cfgA.webhook_url ≠ none ∧ 3 ≤ cfgA.poll_interval.getD 600)) :=
  ⟨by decide,
   C3_spawn_preserves_reconfigure_breaks.1 anyUrlOk anyClientOk
     ⟨[], [], [], gNone⟩ cfgA ("a", cfgA) (by decide)⟩

/-! Retry-loop lemmas. -/

theorem isOk_false_error {e : Type} {a : Type} (x : Except e a) (h : x.isOk = false) :
    ∃ err, x = .error err := by
  cases x
  · exact ⟨_, rfl⟩
  · simp [Except.isOk, Except.toBool] at h

theorem retryFrom_attempts_le (o : Nat → Except String Nat) :
    ∀ (rem att : Nat), countAttempts (retryFrom o att rem).1 ≤ rem := by
  intro rem
  induction rem with
  | zero => intro att; simp [retryFrom, countAttempts]
  | succ n ih =>
      intro att
      unfold retryFrom
      rcases ho : o att with e | r
      · dsimp only
        by_cases hn : n = 0
        · subst hn
          rw [if_pos rfl]
          simp [countAttempts]
        · rw [if_neg hn]
          have := ih (att + 1)
          simp [countAttempts] at *
          omega
      · simp [countAttempts]

theorem retryFrom_attempts_pos (o : Nat → Except String Nat) :
    ∀ (rem att : Nat), 1 ≤ rem → 1 ≤ countAttempts (retryFrom o att rem).1 := by
  intro rem att h
  cases rem with
  | zero => omega
  | succ k =>
      unfold retryFrom
      rcases ho : o att with e | r
      · dsimp only
        by_cases hk : k = 0
        · subst hk
          rw [if_pos rfl]
          simp [countAttempts]
        · rw [if_neg hk]
          simp [countAttempts]
      · simp [countAttempts]

theorem retryFrom_sleep_one (o : Nat → Except String Nat) :
    ∀ (rem att n : Nat), RetryEv.sleepSec n ∈ (retryFrom o att rem).1 → n = 1 := by
  intro rem
  induction rem with
  | zero => intro att n h; simp [retryFrom] at h
  | succ m ih =>
      intro att n h
      unfold retryFrom at h
      rcases ho : o att with e | r
      · rw [ho] at h
        dsimp only at h
        by_cases hm : m = 0
        · subst hm
          rw [if_pos rfl] at h
          simp at h
        · rw [if_neg hm] at h
          simp only [List.mem_cons] at h
          rcases h with h | h | h | h
          · exact absurd h (by simp)
          · exact absurd h (by simp)
          · injection h
          · exact ih (att + 1) n h
      · rw [ho] at h
        simp at h

theorem retryFrom_sleeps_count (o : Nat → Except String Nat) :
    ∀ (rem att : Nat),
      countSleeps (retryFrom o att rem).1 =
        countAttempts (retryFrom o att rem).1 - 1 := by
  intro rem
  induction rem with
  | zero => intro att; simp [retryFrom, countSleeps, countAttempts]
  | succ m ih =>
      intro att
      unfold retryFrom
      rcases ho : o att with e | r
      · dsimp only
        by_cases hm : m = 0
        · subst hm
          rw [if_pos rfl]
          simp [countSleeps, countAttempts]
        · rw [if_neg hm]
          have h1 := ih (att + 1)
          have h2 := retryFrom_attempts_pos o m (att + 1) (by omega)
          simp [countSleeps, countAttempts] at *
          omega
      · simp [countSleeps, countAttempts]

theorem retryFrom_warns_count (o : Nat → Except String Nat) :
    ∀ (rem att : Nat),
      countWarns (retryFrom o att rem).1 =
        countAttempts (retryFrom o att rem).1 - 1 := by
  intro rem
  induction rem with
  | zero => intro att; simp [retryFrom, countWarns, countAttempts]
  | succ m ih =>
      intro att
      unfold retryFrom
      rcases ho : o att with e | r
      · dsimp only
        by_cases hm : m = 0
        · subst hm
          rw [if_pos rfl]
          simp [countWarns, countAttempts]
        · rw [if_neg hm]
          have h1 := ih (att + 1)
          have h2 := retryFrom_attempts_pos o m (att + 1) (by omega)
          simp [countWarns, countAttempts] at *
          omega
      · simp [countWarns, countAttempts]

theorem retryFrom_first_success (o : Nat → Except String Nat) :
    ∀ (rem att j : Nat) (v : Nat), att ≤ j → j < att + rem →
      (∀ k, att ≤ k → k < j → (o k).isOk = false) → o j = .ok v →
      (retryFrom o att rem).2 = .ok v ∧
        countAttempts (retryFrom o att rem).1 = j + 1 - att := by
  intro rem
  induction rem with
  | zero => intro att j v h1 h2 _ _; omega
  | succ m ih =>
      intro att j v h1 h2 hfail hok
      unfold retryFrom
      rcases ho : o att with e | r
      · have hja : att < j := by
          rcases Nat.lt_or_ge att j with h | h
          · exact h
          · have : j = att := by omega
            subst this
            rw [ho] at hok
            exact Except.noConfusion hok
        have hm : ¬ m = 0 := by omega
        dsimp only
        rw [if_neg hm]
        have hrest := ih (att + 1) j v (by omega) (by omega)
          (fun k hk1 hk2 => hfail k (by omega) hk2) hok
        refine ⟨hrest.1, ?_⟩
        have := hrest.2
        simp [countAttempts] at *
        omega
      · have hja : j = att := by
          by_contra hne
          have hlt : att < j := by omega
          have := hfail att (le_refl att) hlt
          rw [ho] at this
          simp [Except.isOk, Except.toBool] at this
        subst hja
        rw [ho] at hok
        injection hok with hv
        subst hv
        constructor
        · rfl
        · simp [countAttempts]

theorem retryFrom_all_fail (o : Nat → Except String Nat) :
    ∀ (rem att : Nat), 1 ≤ rem →
      (∀ k, att ≤ k → k < att + rem → (o k).isOk = false) →
      (retryFrom o att rem).2 = o (att + rem - 1) ∧
        countAttempts (retryFrom o att rem).1 = rem := by
  intro rem
  induction rem with
  | zero => intro att h; omega
  | succ m ih =>
      intro att _ hfail
      obtain ⟨e, he⟩ := isOk_false_error (o att)
        (hfail att (le_refl att) (by omega))
      unfold retryFrom
      rw [he]
      dsimp only
      by_cases hm : m = 0
      · subst hm
        rw [if_pos rfl]
        refine ⟨?_, by simp [countAttempts]⟩
        rw [show att + 1 - 1 = att by omega, he]
      · rw [if_neg hm]
        have hrest := ih (att + 1) (by omega)
          (fun k hk1 hk2 => hfail k (by omega) (by omega))
        refine ⟨?_, ?_⟩
        · rw [hrest.1]
          congr 1
          omega
        · have := hrest.2
          simp [countAttempts] at *
          omega

/-- C7: the core's `send_webhook_retry` makes at most `max_retries`
attempts, every sleep between attempts is exactly 1 second (one sleep
per non-final failed attempt), each non-final failure logs one
warning, the first successful attempt's response is returned
immediately, and when every attempt fails the final attempt's own
error is returned. (The crate's module tree only contains this
implementation; the file src/web.rs holds an undeclared stale variant,
embedded as `web_send_webhook_retry`, whose sleeps grow with the
attempt number.) -/
theorem C7_send_with_retry_spec (outcome : Nat → Except String Nat)
    (max_retries : Nat) (h1 : 1 ≤ max_retries) :
    countAttempts (send_webhook_retry outcome max_retries).1 ≤ max_retries ∧
      (∀ n, RetryEv.sleepSec n ∈ (send_webhook_retry outcome max_retries).1 → n = 1) ∧
      countSleeps (send_webhook_retry outcome max_retries).1 =
        countAttempts (send_webhook_retry outcome max_retries).1 - 1 ∧
      countWarns (send_webhook_retry outcome max_retries).1 =
        countAttempts (send_webhook_retry outcome max_retries).1 - 1 ∧
      (∀ j v, 1 ≤ j → j ≤ max_retries →
        (∀ k, 1 ≤ k → k < j → (outcome k).isOk = false) → outcome j = .ok v →
        (send_webhook_retry outcome max_retries).2 = .ok v ∧
          countAttempts (send_webhook_retry outcome max_retries).1 = j) ∧
      ((∀ k, 1 ≤ k → k ≤ max_retries → (outcome k).isOk = false) →
        (send_webhook_retry outcome max_retries).2 = outcome max_retries ∧
          countAttempts (send_webhook_retry outcome max_retries).1 = max_retries) := by
  unfold send_webhook_retry
  refine ⟨retryFrom_attempts_le outcome max_retries 1,
    retryFrom_sleep_one outcome max_retries 1,
    retryFrom_sleeps_count outcome max_retries 1,
    retryFrom_warns_count outcome max_retries 1, ?_, ?_⟩
  · intro j v hj1 hj2 hfail hok
    have := retryFrom_first_success outcome max_retries 1 j v hj1 (by omega) hfail hok
    exact ⟨this.1, by omega⟩
  · intro hfail
    have := retryFrom_all_fail outcome max_retries 1 h1
      (fun k hk1 hk2 => hfail k hk1 (by omega))
    refine ⟨?_, this.2⟩
    rw [this.1]
    congr 1
    omega

/-- C7 witness: with attempt 1 failing and attempt 2 succeeding under
at most 5 attempts, the theorem's guarantees are discharged at a
concrete outcome oracle. -/
theorem C7_send_with_retry_spec_witness :
    (1 : Nat) ≤ 5 ∧
      (countAttempts (send_webhook_retry okAtTwo 5).1 ≤ 5 ∧
        (∀ n, RetryEv.sleepSec n ∈ (send_webhook_retry okAtTwo 5).1 → n = 1) ∧
        countSleeps (send_webhook_retry okAtTwo 5).1 =
          countAttempts (send_webhook_retry okAtTwo 5).1 - 1 ∧
        countWarns (send_webhook_retry okAtTwo 5).1 =
          countAttempts (send_webhook_retry okAtTwo 5).1 - 1 ∧
        (∀ j v, 1 ≤ j → j ≤ 5 →
          (∀ k, 1 ≤ k → k < j → (okAtTwo k).isOk = false) → okAtTwo j = .ok v →
          (send_webhook_retry okAtTwo 5).2 = .ok v ∧
            countAttempts (send_webhook_retry okAtTwo 5).1 = j) ∧
        ((∀ k, 1 ≤ k → k ≤ 5 → (okAtTwo k).isOk = false) →
          (send_webhook_retry okAtTwo 5).2 = okAtTwo 5 ∧
            countAttempts (send_webhook_retry okAtTwo 5).1 = 5)) :=
  ⟨by decide, C7_send_with_retry_spec okAtTwo 5 (by decide)⟩

/-- The orphaned src/web.rs retry variant diverges from the core's:
with three failing attempts it sleeps 1 then 2 seconds (not 1 and 1)
and returns a generic error instead of the final attempt's error. -/
theorem web_retry_diverges :
    web_send_webhook_retry allFail 3 =
      ([.attempt 1, .warnLog 1, .sleepSec 1, .attempt 2, .warnLog 2, .sleepSec 2,
        .attempt 3], .error "webhook failed after max_retries attempts") := by
  decide

/-! Parser lemmas. -/

theorem parse_channel_none_iff (c : ChannelBlock) :
    parse_channel c = none ↔
      c.username = none ∨ c.counters = none ∨ c.image = some none := by
  rcases c with ⟨u, cnt, nm, im, ds⟩
  rcases u with _ | uid <;> rcases cnt with _ | cblk <;>
    rcases im with _ | im2 <;> try rcases im2 with _ | src
  all_goals simp [parse_channel]

theorem collectMedia_none_iff (ms : List MediaEl) :
    collectMedia ms = none ↔ ∃ e ∈ ms, parse_media e = none := by
  induction ms with
  | nil => simp [collectMedia]
  | cons e rest ih =>
      unfold collectMedia
      rcases hp : parse_media e with _ | u
      · simp [hp]
      · rcases u with _ | url
        · simp [hp, ih]
        · simp [hp, ih, Option.map_eq_none']

theorem parse_post_none_iff (p : PostWrap) :
    parse_post p = none ↔
      p.msg = none ∨ p.msg = some none ∨ ∃ e ∈ p.media, parse_media e = none := by
  rcases p with ⟨msg, a, t, m, r, v, d⟩
  unfold parse_post
  dsimp only
  rcases msg with _ | msg2
  · simp
  · rcases msg2 with _ | id2
    · simp
    · rcases hc : collectMedia m with _ | urls
      · simp [← collectMedia_none_iff, hc]
      · simp [← collectMedia_none_iff, hc]

theorem parse_post_some_fields (p : PostWrap) (post : Post)
    (h : parse_post p = some post) :
    post.author = p.author ∧ post.text = p.text ∧ post.views = p.views ∧
      post.date = p.date.bind (fun a => a) ∧
      post.reactions = p.reactions.map parse_reactions := by
  rcases p with ⟨msg, a, t, m, r, v, d⟩
  unfold parse_post at h
  dsimp only at h
  rcases msg with _ | msg2
  · exact absurd h (by simp)
  · rcases msg2 with _ | id2
    · exact absurd h (by simp)
    · rcases hc : collectMedia m with _ | urls
      · rw [hc] at h
        exact absurd h (by simp)
      · rw [hc] at h
        dsimp only at h
        injection h with h1
        subst h1
        exact ⟨rfl, rfl, rfl, rfl, rfl⟩

theorem parsePosts_none_iff (ps : List PostWrap) :
    parsePosts ps = none ↔ ∃ p ∈ ps, parse_post p = none := by
  induction ps with
  | nil => simp [parsePosts]
  | cons p rest ih =>
      unfold parsePosts
      rcases hp : parse_post p with _ | post
      · simp [hp]
      · simp [hp, ih, Option.map_eq_none']

theorem parsePosts_in_order (ps : List PostWrap) :
    ∀ posts : List Post, parsePosts ps = some posts →
      posts.length = ps.length ∧
        ∀ i (hi : i < ps.length) (hj : i < posts.length),
          parse_post (ps.get ⟨i, hi⟩) = some (posts.get ⟨i, hj⟩) := by
  induction ps with
  | nil =>
      intro posts h
      simp [parsePosts] at h
      subst h
      simp
  | cons p rest ih =>
      intro posts h
      unfold parsePosts at h
      rcases hp : parse_post p with _ | post
      · rw [hp] at h
        exact absurd h (by simp)
      · rw [hp] at h
        dsimp only at h
        rcases hr : parsePosts rest with _ | l
        · rw [hr] at h
          exact absurd h (by simp)
        · rw [hr] at h
          simp only [Option.map_some'] at h
          injection h with h1
          subst h1
          obtain ⟨hlen, hget⟩ := ih l hr
          refine ⟨by simp [hlen], ?_⟩
          intro i hi hj
          cases i with
          | zero => simpa using hp
          | succ k =>
              simp only [List.get_cons_succ]
              exact hget k (by simpa using hi) (by simpa using hj)

theorem parse_page_some_none_iff (d : TmeDoc) :
    parse_page d = some none ↔ d.channel = none := by
  unfold parse_page
  rcases hc : d.channel with _ | cb
  · simp
  · rcases hch : parse_channel cb with _ | ch
    · simp [hch]
    · rcases hp : parsePosts d.posts with _ | posts <;> simp [hch, hp]

theorem parse_page_panic_iff (d : TmeDoc) :
    parse_page d = none ↔
      ∃ cb, d.channel = some cb ∧
        (parse_channel cb = none ∨ ∃ p ∈ d.posts, parse_post p = none) := by
  unfold parse_page
  rcases hc : d.channel with _ | cb
  · simp
  · rcases hch : parse_channel cb with _ | ch
    · simp [hch]
    · rcases hp : parsePosts d.posts with _ | posts
      · simp [hch, ← parsePosts_none_iff, hp]
      · simp [hch, ← parsePosts_none_iff, hp]

theorem parse_page_success (d : TmeDoc) (page : TmePage)
    (h : parse_page d = some (some page)) :
    ∃ cb, d.channel = some cb ∧ parse_channel cb = some page.channel ∧
      parsePosts d.posts = some page.posts := by
  unfold parse_page at h
  rcases hc : d.channel with _ | cb
  · rw [hc] at h
    exact absurd h (by simp)
  · rw [hc] at h
    dsimp only at h
    rcases hch : parse_channel cb with _ | ch
    · rw [hch] at h
      exact absurd h (by simp)
    · rw [hch] at h
      rcases hp : parsePosts d.posts with _ | posts
      · rw [hp] at h
        exact absurd h (by simp)
      · rw [hp] at h
        dsimp only at h
        injection h with h1
        injection h1 with h2
        subst h2
        refine ⟨cb, rfl, hch, ?_⟩
        simp [hp]

/-- C4 (amended): `parse_page` returns the no-channel signal (Ok(None))
exactly when no channel-info block exists, and on success it returns the
channel meta and one post per visible post block in document order,
with each missing optional field (author, text, views, date, reactions,
absent media URLs) mapped to `none` in that field only. However, it is
not total on pages with a channel block: it panics — instead of
failing gracefully — exactly when the channel block lacks the username
element or the counters element or has an image element without `src`,
or when some post wrap lacks the message element or its `data-post`
attribute or has a style whose `url('` is unterminated. -/
theorem C4_parse_page_characterization :
    (∀ d : TmeDoc, parse_page d = some none ↔ d.channel = none) ∧
      (∀ d : TmeDoc, parse_page d = none ↔
        ∃ cb, d.channel = some cb ∧
          (parse_channel cb = none ∨ ∃ p ∈ d.posts, parse_post p = none)) ∧
      (∀ (d : TmeDoc) (page : TmePage), parse_page d = some (some page) →
        ∃ cb, d.channel = some cb ∧ parse_channel cb = some page.channel ∧
          parsePosts d.posts = some page.posts ∧
          page.posts.length = d.posts.length ∧
          ∀ i (hi : i < d.posts.length) (hj : i < page.posts.length),
            parse_post (d.posts.get ⟨i, hi⟩) = some (page.posts.get ⟨i, hj⟩)) ∧
      (∀ cb : ChannelBlock, parse_channel cb = none ↔
        cb.username = none ∨ cb.counters = none ∨ cb.image = some none) ∧
      (∀ p : PostWrap, parse_post p = none ↔
        p.msg = none ∨ p.msg = some none ∨ ∃ e ∈ p.media, parse_media e = none) ∧
      (∀ (p : PostWrap) (post : Post), parse_post p = some post →
        post.author = p.author ∧ post.text = p.text ∧ post.views = p.views ∧
          post.date = p.date.bind (fun a => a) ∧
          post.reactions = p.reactions.map parse_reactions) := by
  refine ⟨parse_page_some_none_iff, parse_page_panic_iff, ?_,
    parse_channel_none_iff, parse_post_none_iff, parse_post_some_fields⟩
  intro d page h
  obtain ⟨cb, hc, hch, hp⟩ := parse_page_success d page h
  obtain ⟨hlen, hget⟩ := parsePosts_in_order d.posts page.posts hp
  exact ⟨cb, hc, hch, hp, hlen, hget⟩

/-- C4 witness: the characterization applied to a channel-less document
(no-channel signal) and to a document whose channel block lacks the
username element (panic). -/
theorem C4_parse_page_characterization_witness :
    parse_page (⟨none, []⟩ : TmeDoc) = some none ∧ parse_page docNoUser = none :=
  ⟨(C4_parse_page_characterization.1 ⟨none, []⟩).mpr rfl,
   (C4_parse_page_characterization.2.1 docNoUser).mpr
     ⟨cbNoUser, rfl,
      Or.inl ((C4_parse_page_characterization.2.2.2.1 cbNoUser).mpr (Or.inl rfl))⟩⟩

/-- C9 (amended): a poll cycle's outcome never depends on the webhook
delivery result (a failed delivery is only logged; the cycle and the
run loop continue), and the cycle fails — terminating the run loop —
exactly when the fetch fails, `parse_page` returns the no-channel
signal, a store lookup during the diff fails to decode, or new posts
exist while the effective `webhook_url` is unset; an error returned by
the poll arm is propagated out of `run`. -/
theorem C9_poll_error_characterization :
    (∀ (cfg : ListenerConfig) (db : PostsDb) (fetched : Option TmeDoc) (w₁ w₂ : Bool),
      Listener.poll cfg db fetched w₁ = Listener.poll cfg db fetched w₂) ∧
      (∀ (cfg : ListenerConfig) (db : PostsDb) (w : Bool),
        Listener.poll cfg db none w = (.errored "fetch error", db, none)) ∧
      (∀ (cfg : ListenerConfig) (db : PostsDb) (doc : TmeDoc) (w : Bool),
        parse_page doc = some none →
        Listener.poll cfg db (some doc) w = (.errored "invalid channel", db, none)) ∧
      (∀ (cfg : ListenerConfig) (db : PostsDb) (doc : TmeDoc) (page : TmePage)
        (w : Bool), parse_page doc = some (some page) →
        (∀ e, (diffStep db page.posts).2.2 = some e →
          Listener.poll cfg db (some doc) w =
            (.errored e, (diffStep db page.posts).1, none)) ∧
        ((diffStep db page.posts).2.2 = none → (diffStep db page.posts).2.1 = [] →
          Listener.poll cfg db (some doc) w = (.ok, (diffStep db page.posts).1, none)) ∧
        ((diffStep db page.posts).2.2 = none → (diffStep db page.posts).2.1 ≠ [] →
          cfg.webhook_url = none →
          Listener.poll cfg db (some doc) w =
            (.errored "webhook_url is not configured", (diffStep db page.posts).1, none)) ∧
        ((diffStep db page.posts).2.2 = none → (diffStep db page.posts).2.1 ≠ [] →
          cfg.webhook_url ≠ none →
          Listener.poll cfg db (some doc) w =
            (.ok, (diffStep db page.posts).1, some (diffStep db page.posts).2.1))) ∧
      (∀ (s : WorkerSt) (fetched : Option TmeDoc) (w : Bool) (e : String),
        Listener.run_step s (.pollDone fetched w) = .exited e ↔
          (Listener.poll s.cfg s.db fetched w).1 = .errored e) := by
  refine ⟨?_, ?_, ?_, ?_, ?_⟩
  · intro cfg db fetched w₁ w₂
    rfl
  · intro cfg db w
    rfl
  · intro cfg db doc w hp
    simp [Listener.poll, hp]
  · intro cfg db doc page w hp
    refine ⟨?_, ?_, ?_, ?_⟩
    · intro e he
      simp [Listener.poll, hp, he]
    · intro he hemp
      simp [Listener.poll, hp, he, hemp]
    · intro he hne hw
      rcases hl : (diffStep db page.posts).2.1 with _ | ⟨p0, l⟩
      · exact absurd hl hne
      · simp [Listener.poll, hp, he, hl, hw]
    · intro he hne hw
      rcases hl : (diffStep db page.posts).2.1 with _ | ⟨p0, l⟩
      · exact absurd hl hne
      · rcases hwu : cfg.webhook_url with _ | u
        · exact absurd hwu hw
        · simp [Listener.poll, hp, he, hl, hwu]
  · intro s fetched w e
    unfold Listener.run_step
    dsimp only
    rcases hr : (Listener.poll s.cfg s.db fetched w).1 with _ | e' | _ <;> simp

/-- C9 witness: the theorem applied at concrete inputs — delivery
outcome independence and the fetch-error case for config "a", the
invalid-channel case for a channel-less document, and the run-loop
propagation of the fetch error. -/
theorem C9_poll_error_characterization_witness :
    Listener.poll cfgA [] (some docOne) true = Listener.poll cfgA [] (some docOne) false ∧
      Listener.poll cfgA [] none true = (.errored "fetch error", [], none) ∧
      Listener.poll cfgA [] (some ⟨none, []⟩) true =
        (.errored "invalid channel", [], none) ∧
      (Listener.run_step ⟨cfgA, []⟩ (.pollDone none true) = .exited "fetch error" ↔
        (Listener.poll cfgA [] none true).1 = .errored "fetch error") :=
  ⟨C9_poll_error_characterization.1 cfgA [] (some docOne) true false,
   C9_poll_error_characterization.2.1 cfgA [] true,
   C9_poll_error_characterization.2.2.1 cfgA [] ⟨none, []⟩ true (by decide),
   C9_poll_error_characterization.2.2.2.2 ⟨cfgA, []⟩ none true "fetch error"⟩

/-! Supervisor restore lemmas. -/

theorem addList_fold (rs : List ListenerRow) :
    ∀ s : ServerSt,
      List.foldlM (fun st row => Server.add_listener st (configOfRow row)) s rs =
        some { s with
          rows := List.foldl (fun acc row => upsertRow acc { row with active := true })
            s.rows rs,
          mailbox := s.mailbox ++
            List.map (fun row => ListenerCmd.Add (configOfRow row)) rs } := by
  induction rs with
  | nil =>
      intro s
      simp [List.foldlM]
  | cons r rest ih =>
      intro s
      rw [List.foldlM_cons]
      have hstep : Server.add_listener s (configOfRow r) =
          some { s with rows := upsertRow s.rows { r with active := true },
                        mailbox := s.mailbox ++ [.Add (configOfRow r)] } := rfl
      rw [hstep]
      simp only [Option.bind_eq_bind, Option.some_bind]
      rw [ih]
      simp

theorem process_adds (urlOk : String → Bool) (clientOk : ListenerConfig → Bool)
    (rows : List ListenerRow) :
    ∀ s : ServerSt,
      (List.map ListenerRow.id rows).Nodup →
      (∀ r ∈ rows, ∀ q ∈ s.listeners, ¬ q.1 = r.id) →
      (List.foldl (Server.process_cmd urlOk clientOk) s
          (List.map (fun row => ListenerCmd.Add (configOfRow row)) rows)).listeners =
        s.listeners ++
          List.map (fun r => (r.id, (configOfRow r).merge_with s.global))
            (List.filter (fun r => spawnOk urlOk clientOk s.global r) rows) := by
  induction rows with
  | nil => intro s _ _; simp
  | cons r rest ih =>
      intro s hnd hfresh
      simp only [List.map_cons, List.foldl_cons]
      have hid : ((configOfRow r).merge_with s.global).id = r.id :=
        merge_with_id (configOfRow r) s.global
      have hany : List.any s.listeners
          (fun p => p.1 = ((configOfRow r).merge_with s.global).id) = false := by
        rw [hid]
        rw [List.any_eq_false]
        intro q hq
        simpa using hfresh r (by simp) q hq
      have hproc : Server.process_cmd urlOk clientOk s (.Add (configOfRow r)) =
          Server.spawn_listener urlOk clientOk s (configOfRow r) := rfl
      rw [hproc]
      unfold Server.spawn_listener
      dsimp only
      rw [hany]
      simp only [Bool.false_eq_true, if_false]
      rcases hnew : listener_new urlOk clientOk ((configOfRow r).merge_with s.global)
        with e | c
      · have hspawn : spawnOk urlOk clientOk s.global r = false := by
          unfold spawnOk
          rw [hnew]
        rw [ih s (by simpa using hnd.of_cons)
          (fun r2 hr2 q hq => hfresh r2 (by simp [hr2]) q hq)]
        simp [List.filter_cons, hspawn]
      · have hspawn : spawnOk urlOk clientOk s.global r = true := by
          unfold spawnOk
          rw [hnew]
        have hglob : ({ s with listeners :=
            s.listeners ++ [(((configOfRow r).merge_with s.global).id,
              (configOfRow r).merge_with s.global)] } : ServerSt).global = s.global := rfl
        rw [ih _ (by simpa using hnd.of_cons) ?fresh]
        case fresh =>
          intro r2 hr2 q hq
          dsimp only at hq
          rcases List.mem_append.mp hq with h | h
          · exact hfresh r2 (by simp [hr2]) q h
          · rcases List.mem_singleton.mp h with rfl
            dsimp only
            rw [hid]
            have hne : r.id ≠ r2.id := by
              have := hnd
              simp only [List.map_cons, List.nodup_cons] at this
              intro hcontra
              exact this.1 (hcontra ▸ List.mem_map_of_mem ListenerRow.id hr2)
            exact hne
        simp [List.filter_cons, hspawn, hid]

/-- C6 (amended): on startup the supervisor's restore phase spawns no
worker directly — for each stored row it re-upserts the row and
enqueues one `Add` command carrying that row's config; the command
loop then processes these commands in FIFO order (before any command
enqueued later), spawning exactly one worker per row whose merged
config passes `Listener::new` (with the row's config merged with the
global config); a row whose spawn fails is skipped with a log and
processing continues with the remaining rows. -/
theorem C6_restore_enqueues_then_loop_spawns (urlOk : String → Bool)
    (clientOk : ListenerConfig → Bool) (g : GlobalListenerConfig)
    (rows : List ListenerRow) (hnd : (List.map ListenerRow.id rows).Nodup) :
    ∃ s1, Server.restore ⟨[], rows, [], g⟩ = some s1 ∧
      s1.listeners = [] ∧
      s1.mailbox = List.map (fun row => ListenerCmd.Add (configOfRow row)) rows ∧
      (Server.drain_mailbox urlOk clientOk s1).listeners =
        List.map (fun r => (r.id, (configOfRow r).merge_with g))
          (List.filter (fun r => spawnOk urlOk clientOk g r) rows) := by
  have hres := addList_fold rows (⟨[], rows, [], g⟩ : ServerSt)
  refine ⟨_, hres, rfl, by simp, ?_⟩
  unfold Server.drain_mailbox
  have hmb : ({ (⟨[], rows, [], g⟩ : ServerSt) with
      rows := List.foldl (fun acc row => upsertRow acc { row with active := true })
        rows rows,
      mailbox := [] ++ List.map (fun row => ListenerCmd.Add (configOfRow row)) rows }
        : ServerSt).mailbox =
      List.map (fun row => ListenerCmd.Add (configOfRow row)) rows := by simp
  rw [hmb]
  exact process_adds urlOk clientOk rows _ hnd (fun r _ q hq => absurd hq (by simp))

/-- C6 witness: for the cold-boot row of scenario 1, restore enqueues
exactly one Add and draining the mailbox spawns exactly the worker for
"news" with the row's config merged with the (empty) global config. -/
theorem C6_restore_enqueues_then_loop_spawns_witness :
    ∃ s1, Server.restore ⟨[], [newsRow], [], gNone⟩ = some s1 ∧
      s1.listeners = [] ∧
      s1.mailbox = List.map (fun row => ListenerCmd.Add (configOfRow row)) [newsRow] ∧
      (Server.drain_mailbox anyUrlOk anyClientOk s1).listeners =
        List.map (fun r => (r.id, (configOfRow r).merge_with gNone))
          (List.filter (fun r => spawnOk anyUrlOk anyClientOk gNone r) [newsRow]) :=
  C6_restore_enqueues_then_loop_spawns anyUrlOk anyClientOk gNone [newsRow] (by decide)

/-! Posts-table and dedup lemmas. -/

theorem rowMem_iff_exists (db : PostsDb) (x : String) :
    rowMem db x ↔ ∃ r ∈ db, r.1 = x := by
  unfold rowMem PostsDb.lookup
  rw [Option.isSome_map']
  rw [List.find?_isSome]
  simp

theorem get_posts_ok_none_iff (db : PostsDb) (x : String) :
    get_posts db x = .ok none ↔ ¬ rowMem db x := by
  unfold get_posts rowMem
  rcases hl : PostsDb.lookup db x with _ | sp
  · simp
  · rcases sp with ⟨a, t, m, r, v, d⟩
    rcases a with _ | a <;> rcases t with _ | t <;> rcases v with _ | v <;>
      rcases d with _ | d <;> simp

theorem rowMem_insert (db : PostsDb) (p : Post) (x : String) :
    rowMem (insert_post db p) x ↔ (rowMem db x ∨ x = p.id) := by
  rw [rowMem_iff_exists, rowMem_iff_exists]
  unfold insert_post
  dsimp only
  constructor
  · rintro ⟨r, hr, hrx⟩
    rcases List.mem_append.mp hr with h | h
    · exact Or.inl ⟨r, (List.mem_filter.mp h).1, hrx⟩
    · rcases List.mem_singleton.mp h with rfl
      exact Or.inr hrx.symm
  · rintro (⟨r, hr, hrx⟩ | rfl)
    · by_cases hrp : r.1 = p.id
      · refine ⟨(p.id, ⟨p.author, p.text, p.media, p.reactions, p.views, p.date⟩),
          List.mem_append_right _ (by simp), ?_⟩
        rw [← hrp, hrx]
      · exact ⟨r,
          List.mem_append_left _ (List.mem_filter.mpr ⟨hr, by simpa using hrp⟩), hrx⟩
    · exact ⟨(p.id, ⟨p.author, p.text, p.media, p.reactions, p.views, p.date⟩),
        List.mem_append_right _ (by simp), rfl⟩

theorem diffStep_dedup (x : String) :
    ∀ (posts : List Post) (db : PostsDb),
      (rowMem db x → rowMem (diffStep db posts).1 x) ∧
      (rowMem db x → countId (diffStep db posts).2.1 x = 0) ∧
      countId (diffStep db posts).2.1 x ≤ 1 ∧
      (1 ≤ countId (diffStep db posts).2.1 x → rowMem (diffStep db posts).1 x) := by
  intro posts
  induction posts with
  | nil => intro db; simp [diffStep, countId]
  | cons p rest ih =>
      intro db
      unfold diffStep
      rcases hg : get_posts db p.id with e | q
      · simp [countId]
      · rcases q with _ | q
        · have hmem : ¬ rowMem db p.id := (get_posts_ok_none_iff db p.id).mp hg
          have ihh := ih (insert_post db p)
          dsimp only
          refine ⟨?_, ?_, ?_, ?_⟩
          · intro hm
            exact ihh.1 ((rowMem_insert db p x).mpr (Or.inl hm))
          · intro hm
            have hxp : ¬ p.id = x := fun hx => hmem (by rw [hx]; exact hm)
            have h0 : countId (diffStep (insert_post db p) rest).2.1 x = 0 :=
              ihh.2.1 ((rowMem_insert db p x).mpr (Or.inl hm))
            simp only [countId]
            rw [if_neg hxp]
            omega
          · by_cases hxp : p.id = x
            · have h0 : countId (diffStep (insert_post db p) rest).2.1 x = 0 :=
                ihh.2.1 ((rowMem_insert db p x).mpr (Or.inr hxp.symm))
              simp only [countId]
              rw [if_pos hxp]
              omega
            · have h1 := ihh.2.2.1
              simp only [countId]
              rw [if_neg hxp]
              omega
          · by_cases hxp : p.id = x
            · intro _
              exact ihh.1 ((rowMem_insert db p x).mpr (Or.inr hxp.symm))
            · simp only [countId]
              rw [if_neg hxp]
              intro hc
              exact ihh.2.2.2 (by omega)
        · exact ih db

theorem poll_dedup (cfg : ListenerConfig) (db : PostsDb) (fetched : Option TmeDoc)
    (w : Bool) (x : String) :
    (rowMem db x → rowMem (Listener.poll cfg db fetched w).2.1 x) ∧
      (∀ l, (Listener.poll cfg db fetched w).2.2 = some l →
        (rowMem db x → countId l x = 0) ∧ countId l x ≤ 1 ∧
          (1 ≤ countId l x → rowMem (Listener.poll cfg db fetched w).2.1 x)) := by
  unfold Listener.poll
  rcases fetched with _ | doc
  · simp
  · rcases hp : parse_page doc with _ | pg
    · simp [hp]
    · rcases pg with _ | page
      · simp [hp]
      · have hd := diffStep_dedup x page.posts db
        rcases he : (diffStep db page.posts).2.2 with _ | e
        · rcases hl : (diffStep db page.posts).2.1 with _ | ⟨p0, tl⟩
          · simp only [hp, he, hl]
            simp
            exact hd.1
          · rcases hw : cfg.webhook_url with _ | u
            · simp only [hp, he, hl, hw]
              simp
              exact hd.1
            · simp only [hp, he, hl, hw]
              simp only [List.isEmpty_cons, Bool.false_eq_true, if_false]
              rw [hl] at hd
              refine ⟨fun hm => hd.1 hm, fun l hleq => ?_⟩
              have : p0 :: tl = l := by
                simpa using hleq
              subst this
              exact ⟨hd.2.1, hd.2.2.1, hd.2.2.2⟩
        · simp only [hp, he]
          simp
          exact hd.1

theorem runDeliveries_bound (x : String) :
    ∀ (evs : List WorkerEv) (s : WorkerSt),
      deliveredCount (runDeliveries s evs) x ≤ 1 ∧
        (rowMem s.db x → deliveredCount (runDeliveries s evs) x = 0) := by
  intro evs
  induction evs with
  | nil => intro s; simp [runDeliveries, deliveredCount]
  | cons ev rest ih =>
      intro s
      rcases ev with _ | g | ⟨f, w⟩
      · simp [runDeliveries, Listener.run_step, deliveredCount]
      · have := ih ⟨s.cfg.merge_with g, s.db⟩
        simpa [runDeliveries, Listener.run_step, deliveredCount] using this
      · have hpd := poll_dedup s.cfg s.db f w x
        unfold runDeliveries Listener.run_step
        dsimp only
        rcases h1 : (Listener.poll s.cfg s.db f w).1 with _ | e | _
        · simp [deliveredCount]
        · simp [deliveredCount]
        · rcases h2 : (Listener.poll s.cfg s.db f w).2.2 with _ | l
          · dsimp only
            have hr := ih ⟨s.cfg, (Listener.poll s.cfg s.db f w).2.1⟩
            refine ⟨hr.1, fun hm => hr.2 (hpd.1 hm)⟩
          · dsimp only
            obtain ⟨hz, hle, hmem⟩ := hpd.2 l h2
            have hr := ih ⟨s.cfg, (Listener.poll s.cfg s.db f w).2.1⟩
            constructor
            · by_cases hc : 1 ≤ countId l x
              · have h0 := hr.2 (hmem hc)
                simp only [deliveredCount]
                omega
              · have := hr.1
                simp only [deliveredCount]
                omega
            · intro hm
              have h0 := hz hm
              have h1' := hr.2 (hpd.1 hm)
              simp only [deliveredCount]
              omega

/-- C8: across any sequence of run-loop events (poll cycles with
arbitrary fetched pages, global-config changes, arbitrary webhook
outcomes), a post id appears in the `new_posts` of a webhook delivery
at most once: a post is appended only when `get_posts` reports it
absent, it is inserted before the delivery attempt, and a failed
delivery does not change the store, so it can never be classified as
new again. -/
theorem C8_delivery_at_most_once :
    ∀ (s : WorkerSt) (evs : List WorkerEv) (x : String),
      deliveredCount (runDeliveries s evs) x ≤ 1 :=
  fun s evs x => (runDeliveries_bound x evs s).1

end Litehook
